import Mathlib

/-
Verification of the car-talk-archiver episode-harvesting and merge algorithm
(src/cta.py) against its specification. The Python program is shallowly
embedded: datetimes become a record of calendar-day index, seconds within
the day and an optional UTC offset; the dynamically-typed pub_date and
duration fields of Episode become sum types; the network is an environment
function from the start query parameter to the page markup returned; the
unbounded while loop becomes fuel recursion; an uncaught Python exception
becomes an explicit outcome constructor.
-/

namespace CarTalk

/-- Model of a Python datetime: calendar-day index (days since an arbitrary
epoch), seconds elapsed within that day, and the tzinfo UTC offset in
minutes (none models a naive datetime, tzinfo=None). -/
structure PyDateTime where
  days : Int
  secondsOfDay : Nat
  tzOffsetMinutes : Option Int
deriving DecidableEq, Repr

/-- The absolute instant of a datetime in seconds, as Python uses to compare
aware datetimes (a naive datetime is treated as offset 0, which the program
never relies on: every compared datetime is aware). -/
def toInstant (t : PyDateTime) : Int :=
  t.days * 86400 + (t.secondsOfDay : Int) - 60 * (t.tzOffsetMinutes.getD 0)

/-- Python is dynamically typed: the pub_date field of Episode holds a
parsed datetime on the web-harvest path but the raw pubDate string on the
feed-file path (get_episodes_from_channel never calls strptime). -/
inductive PubDateVal where
  | dt (t : PyDateTime)
  | raw (s : String)
deriving DecidableEq, Repr

/-- The duration field likewise holds the itunes:duration text on the
feed-file path and the integer from the embedded JSON on the web path. -/
inductive DurationVal where
  | str (s : String)
  | int (n : Int)
deriving DecidableEq, Repr

/-- The Episode dataclass of src/cta.py (field order preserved). -/
structure Episode where
  title : String
  description : String
  pub_date : PubDateVal
  link : String
  audio_url : String
  duration : DurationVal
  size : String
deriving DecidableEq, Repr

/-- One item element of the input RSS channel. pubDateParsed models the
result of the library call strptime(pubDateText, RFC-822 format) on the raw
text, paired with it; the program parses the text only inside
get_last_episode_date. -/
structure RssItem where
  titleText : String
  pubDateText : String
  pubDateParsed : PyDateTime
  linkText : String
  summaryText : String
  durationText : String
  enclosureUrl : String
  enclosureLength : String
deriving DecidableEq, Repr

/-- The channel element: its item children in document order. -/
structure Channel where
  items : List RssItem
deriving DecidableEq, Repr

/-- The parsed XML root: find of the channel tag yields an element or None. -/
structure XmlRoot where
  channel? : Option Channel
deriving DecidableEq, Repr

/-- Uncaught Python exceptions the embedded control flow can raise. -/
inductive PyExc where
  | attributeError
deriving DecidableEq, Repr

/-- Python max(a, b): the second argument replaces the first only when
strictly greater; aware datetimes compare by absolute instant. -/
def pyMax (a b : PyDateTime) : PyDateTime :=
  if toInstant a < toInstant b then b else a

/-- get_last_episode_date of src/cta.py: reads item[1]/pubDate and
item[last()]/pubDate and returns the max of their parsed dates. On a
channel with no items, find returns None and the .text dereference raises
AttributeError. -/
def get_last_episode_date (channel : Channel) : Except PyExc PyDateTime :=
  match channel.items.head?, channel.items.getLast? with
  | some first, some last => .ok (pyMax first.pubDateParsed last.pubDateParsed)
  | _, _ => .error .attributeError

/-- get_episodes_from_channel of src/cta.py: direct field mapping, the raw
pubDate and itunes:duration texts are stored without parsing. -/
def get_episodes_from_channel (channel : Channel) : List Episode :=
  channel.items.map (fun item =>
    { title := item.titleText
      description := item.summaryText
      pub_date := .raw item.pubDateText
      link := item.linkText
      audio_url := item.enclosureUrl
      duration := .str item.durationText
      size := item.enclosureLength })

/-- An h2.title tag: link_tag.a is the anchor child with its href, or none
for NPR+ exclusives that carry no anchor. -/
structure LinkTag where
  a : Option String
deriving DecidableEq, Repr

/-- A p.teaser tag: the calendar-day index that strptime yields from the
date-only datetime attribute of its time child, and the text left by
get_text(strip=True) after decomposing all child tags. -/
structure TeaserTag where
  timeDatetime : Int
  strippedText : String
deriving DecidableEq, Repr

/-- A div.audio-module-controls-wrap tag: the fields of its data-audio JSON
payload, and the size entry of parse_qs over the audio URL query string
(none when the parameter is absent). -/
structure DataTag where
  title : String
  audioUrl : String
  duration : Int
  urlSizeParam : Option String
deriving DecidableEq, Repr

/-- One page of markup returned by the listing endpoint: the three
parallel tag collections selected by class. -/
structure Page where
  linkTags : List LinkTag
  teaserTags : List TeaserTag
  dataTags : List DataTag

/-- EPS_PER_PAGE of src/cta.py. -/
def EPS_PER_PAGE : Nat := 24

/-- AUDIO_BITRATE of src/cta.py (kbps). -/
def AUDIO_BITRATE : Int := 128

/-- Python zip over three lists: truncates to the shortest. -/
def zip3 : List LinkTag → List TeaserTag → List DataTag →
    List (LinkTag × TeaserTag × DataTag)
  | a :: as, b :: bs, c :: cs => (a, b, c) :: zip3 as bs cs
  | _, _, _ => []

/-- strptime of a date-only value: a naive datetime at midnight on that
calendar date. -/
def strptime_date_only (d : Int) : PyDateTime :=
  { days := d, secondsOfDay := 0, tzOffsetMinutes := none }

/-- Adding a non-negative timedelta of whole seconds to a datetime, with
day rollover; the tzinfo is unchanged. -/
def addSeconds (t : PyDateTime) (s : Nat) : PyDateTime :=
  { days := t.days + ((t.secondsOfDay + s) / 86400 : Nat)
    secondsOfDay := (t.secondsOfDay + s) % 86400
    tzOffsetMinutes := t.tzOffsetMinutes }

/-- Lines 135-138 of src/cta.py: parse the date-only attribute, replace
tzinfo with UTC, then add timedelta(hours=12). -/
def normalizeWebDate (d : Int) : PyDateTime :=
  addSeconds { strptime_date_only d with tzOffsetMinutes := some 0 } 43200

/-- Lines 141-143 of src/cta.py: the loop break test. A datetime object is
always truthy, so the test fires exactly when a cutoff was passed and
pub_date is at or before it. -/
def cutoffHit (cutoff : Option PyDateTime) (pub : PyDateTime) : Bool :=
  match cutoff with
  | none => false
  | some c => decide (toInstant pub ≤ toInstant c)

/-- Lines 156-163 of src/cta.py: take the size query parameter when
present, otherwise str((duration * AUDIO_BITRATE * 1000) // 8) with
Python floor division. -/
def computeSize (d : DataTag) : String :=
  match d.urlSizeParam with
  | some s => s
  | none => toString ((d.duration * AUDIO_BITRATE * 1000).fdiv 8)

/-- Construction of a web Episode (line 166 of src/cta.py). -/
def mkWebEpisode (href : String) (pub : PyDateTime) (t : TeaserTag)
    (d : DataTag) : Episode :=
  { title := d.title
    description := t.strippedText
    pub_date := .dt pub
    link := href
    audio_url := d.audioUrl
    duration := .int d.duration
    size := computeSize d }

/-- The for loop over the zipped tag triples (lines 126-167 of src/cta.py).
Returns the episodes appended on this page and whether the cutoff break
fired. An entry whose link tag has no anchor is passed over before its
date is even parsed. -/
def processEntries (cutoff : Option PyDateTime) :
    List (LinkTag × TeaserTag × DataTag) → List Episode × Bool
  | [] => ([], false)
  | (l, t, d) :: rest =>
    match l.a with
    | none => processEntries cutoff rest
    | some href =>
      let pub := normalizeWebDate t.timeDatetime
      if cutoffHit cutoff pub then
        ([], true)
      else
        let r := processEntries cutoff rest
        (mkWebEpisode href pub t d :: r.1, r.2)

/-- The while loop of get_episodes_from_web. The web environment maps the
start query parameter actually sent (line 112 formats start + 1 into the
URL) to the page returned. still_eps stays true only when the page had at
least EPS_PER_PAGE raw teaser rows and the cutoff break did not fire; the
page's entries are processed either way, and start grows by EPS_PER_PAGE.
Fuel bounds the unbounded Python loop; the second component records the
start parameters of the requests made, in order. -/
def harvestLoop (web : Nat → Page) (cutoff : Option PyDateTime) :
    Nat → Nat → List Episode × List Nat
  | 0, _ => ([], [])
  | fuel + 1, start =>
    let page := web (start + 1)
    let r := processEntries cutoff (zip3 page.linkTags page.teaserTags page.dataTags)
    if EPS_PER_PAGE ≤ page.teaserTags.length ∧ r.2 = false then
      (r.1 ++ (harvestLoop web cutoff fuel (start + EPS_PER_PAGE)).1,
       (start + 1) :: (harvestLoop web cutoff fuel (start + EPS_PER_PAGE)).2)
    else
      (r.1, [start + 1])

/-- get_episodes_from_web of src/cta.py: run the page loop from start = 0.
Returns the harvested episodes in emission order together with the start
parameters requested. -/
def get_episodes_from_web (web : Nat → Page)
    (last_episode_date : Option PyDateTime) (fuel : Nat) :
    List Episode × List Nat :=
  harvestLoop web last_episode_date fuel 0

/-- The outcome of parsing the input file: get_xml_root returns None on a
missing or unparseable file, otherwise the root with its optional channel
child. -/
inductive InputFile where
  | notFound
  | parseError
  | parsed (root : XmlRoot)
deriving DecidableEq, Repr

/-- Observable outcome of main: a graceful early return code, a successful
run recording the episode sequence handed to generate_feed (exit 0), or an
uncaught Python exception. -/
inductive RunOutcome where
  | exit (code : Int)
  | success (feed : List Episode)
  | exc (e : PyExc)
deriving DecidableEq, Repr

/-- main of src/cta.py. With an input file: parse it, locate the channel,
compute last_episode_date, then hand
get_episodes_from_channel(channel) ++ reverse of the bounded harvest to
generate_feed. Without one: hand the unbounded harvest over directly
(line 54 performs no reversal). -/
def mainModel (input : Option InputFile) (web : Nat → Page) (fuel : Nat) :
    RunOutcome :=
  match input with
  | some .notFound => .exit (-1)
  | some .parseError => .exit (-1)
  | some (.parsed root) =>
    match root.channel? with
    | none => .exit (-1)
    | some channel =>
      match get_last_episode_date channel with
      | .error e => .exc e
      | .ok last_episode_date =>
        .success (get_episodes_from_channel channel ++
          (get_episodes_from_web web (some last_episode_date) fuel).1.reverse)
  | none => .success (get_episodes_from_web web none fuel).1

/-- Every episode the entry loop emits comes from a zipped triple whose
link tag carries an anchor and whose normalized date did not hit the
cutoff, and is built by mkWebEpisode from that triple. -/
lemma processEntries_mem {cutoff : Option PyDateTime}
    {es : List (LinkTag × TeaserTag × DataTag)} {ep : Episode}
    (h : ep ∈ (processEntries cutoff es).1) :
    ∃ l t d href, (l, t, d) ∈ es ∧ l.a = some href ∧
      cutoffHit cutoff (normalizeWebDate t.timeDatetime) = false ∧
      ep = mkWebEpisode href (normalizeWebDate t.timeDatetime) t d := by
  induction es with
  | nil => simp [processEntries] at h
  | cons e rest ih =>
    obtain ⟨l, t, d⟩ := e
    cases ha : l.a with
    | none =>
      simp only [processEntries, ha] at h
      obtain ⟨l', t', d', href, hmem, h1, h2, h3⟩ := ih h
      exact ⟨l', t', d', href, List.mem_cons_of_mem _ hmem, h1, h2, h3⟩
    | some href =>
      simp only [processEntries, ha] at h
      by_cases hc : cutoffHit cutoff (normalizeWebDate t.timeDatetime) = true
      · simp [hc] at h
      · rw [Bool.not_eq_true] at hc
        simp only [hc, Bool.false_eq_true, if_false, List.mem_cons] at h
        rcases h with h | h
        · exact ⟨l, t, d, href, List.mem_cons_self _ _, ha, hc, h⟩
        · obtain ⟨l', t', d', href', hmem, h1, h2, h3⟩ := ih h
          exact ⟨l', t', d', href', List.mem_cons_of_mem _ hmem, h1, h2, h3⟩

/-- Every episode the page loop emits is built by mkWebEpisode from some
triple with an anchor whose normalized date did not hit the cutoff. -/
lemma harvestLoop_mem {web : Nat → Page} {cutoff : Option PyDateTime}
    {fuel start : Nat} {ep : Episode}
    (h : ep ∈ (harvestLoop web cutoff fuel start).1) :
    ∃ l t d href, (l : LinkTag).a = some href ∧
      cutoffHit cutoff (normalizeWebDate (t : TeaserTag).timeDatetime) = false ∧
      ep = mkWebEpisode href (normalizeWebDate t.timeDatetime) t (d : DataTag) := by
  induction fuel generalizing start with
  | zero => simp [harvestLoop] at h
  | succ fuel ih =>
    rw [harvestLoop] at h
    split at h
    · simp only [List.mem_append] at h
      rcases h with h | h
      · obtain ⟨l, t, d, href, _, h1, h2, h3⟩ := processEntries_mem h
        exact ⟨l, t, d, href, h1, h2, h3⟩
      · exact ih h
    · obtain ⟨l, t, d, href, _, h1, h2, h3⟩ := processEntries_mem h
      exact ⟨l, t, d, href, h1, h2, h3⟩

/-- With no cutoff the break branch is unreachable. -/
lemma processEntries_none_no_break (es : List (LinkTag × TeaserTag × DataTag)) :
    (processEntries none es).2 = false := by
  induction es with
  | nil => rfl
  | cons e rest ih =>
    obtain ⟨l, t, d⟩ := e
    cases ha : l.a with
    | none => simp only [processEntries, ha]; exact ih
    | some href => simp only [processEntries, ha, cutoffHit]; exact ih

/-- The page loop, given any fuel at all, makes at least one request. -/
lemma harvestLoop_reqs_len_pos (web : Nat → Page) (cutoff : Option PyDateTime)
    (fuel start : Nat) : 1 ≤ (harvestLoop web cutoff (fuel + 1) start).2.length := by
  rw [harvestLoop]
  split <;> simp

/-- The start parameters requested from any starting offset form the
arithmetic progression start + 1, start + 1 + EPS_PER_PAGE, ... -/
lemma harvestLoop_reqs_shape (web : Nat → Page) (cutoff : Option PyDateTime)
    (fuel start : Nat) :
    ∃ n, (harvestLoop web cutoff fuel start).2 =
      (List.range n).map (fun i => start + EPS_PER_PAGE * i + 1) := by
  induction fuel generalizing start with
  | zero => exact ⟨0, rfl⟩
  | succ fuel ih =>
    rw [harvestLoop]
    split
    · obtain ⟨m, hm⟩ := ih (start + EPS_PER_PAGE)
      refine ⟨m + 1, ?_⟩
      rw [hm, List.range_succ_eq_map, List.map_cons, List.map_map]
      refine congrArg₂ List.cons (by omega) ?_
      refine List.map_congr_left ?_
      intro i _
      simp only [Function.comp_apply, Nat.mul_succ]
      omega
    · exact ⟨1, rfl⟩

/-- Instant of the Python max of two datetimes. -/
lemma toInstant_pyMax (a b : PyDateTime) :
    toInstant (pyMax a b) = max (toInstant a) (toInstant b) := by
  by_cases h : toInstant a < toInstant b
  · simp [pyMax, h, max_eq_right h.le]
  · simp [pyMax, h, max_eq_left (not_lt.mp h)]

/-- Python max of two values is one of the two. -/
lemma pyMax_eq_or (a b : PyDateTime) : pyMax a b = a ∨ pyMax a b = b := by
  unfold pyMax
  split
  · exact Or.inr rfl
  · exact Or.inl rfl

lemma mem_of_head?_eq {α : Type} {l : List α} {a : α} (h : l.head? = some a) :
    a ∈ l := by
  cases l with
  | nil => simp at h
  | cons b t =>
    simp only [List.head?_cons, Option.some.injEq] at h
    exact h ▸ List.mem_cons_self _ _

lemma mem_of_getLast?_eq {α : Type} {l : List α} {a : α}
    (h : l.getLast? = some a) : a ∈ l := by
  induction l with
  | nil => simp at h
  | cons b t ih =>
    cases t with
    | nil =>
      simp only [List.getLast?_singleton, Option.some.injEq] at h
      exact h ▸ List.mem_cons_self _ _
    | cons c t' =>
      rw [List.getLast?_cons_cons] at h
      exact List.mem_cons_of_mem _ (ih h)

/-- In an ascending list of instants, every element is at most the last. -/
lemma sorted_le_getLast :
    ∀ (l : List Int), l.Sorted (· ≤ ·) → ∀ a : Int, l.getLast? = some a →
      ∀ x ∈ l, x ≤ a := by
  intro l
  induction l with
  | nil => simp
  | cons b t ih =>
    intro hs a h x hx
    rw [List.sorted_cons] at hs
    cases t with
    | nil =>
      simp only [List.getLast?_singleton, Option.some.injEq] at h
      simp only [List.mem_singleton] at hx
      exact hx ▸ h ▸ le_refl b
    | cons c t' =>
      rw [List.getLast?_cons_cons] at h
      rcases List.mem_cons.mp hx with rfl | hx'
      · exact hs.1 a (mem_of_getLast?_eq h)
      · exact ih hs.2 a h x hx'

/-- In a descending list of instants, every element is at most the head. -/
lemma sorted_le_head {l : List Int} (hs : l.Sorted (· ≥ ·)) {a : Int}
    (h : l.head? = some a) : ∀ x ∈ l, x ≤ a := by
  cases l with
  | nil => simp
  | cons b t =>
    intro x hx
    simp only [List.head?_cons, Option.some.injEq] at h
    rw [List.sorted_cons] at hs
    rcases List.mem_cons.mp hx with rfl | hx'
    · exact h ▸ le_refl x
    · exact h ▸ hs.1 x hx'

/-- Normalization of a date-only value: replacing the tzinfo with UTC and
adding twelve hours to midnight yields noon UTC on the same calendar day. -/
lemma normalizeWebDate_spec (d : Int) :
    normalizeWebDate d = ⟨d, 43200, some 0⟩ := by
  simp [normalizeWebDate, addSeconds, strptime_date_only]

/-- An empty listing page: no markup rows at all. -/
def pageEmpty : Page := ⟨[], [], []⟩

/-- A listing endpoint that is already exhausted. -/
def webEmpty : Nat → Page := fun _ => pageEmpty

/-- A title tag whose anchor is present. -/
def tagLinked : LinkTag := ⟨some "https://www.npr.org/ep"⟩

/-- A title tag with no anchor (an NPR+ exclusive). -/
def tagPremium : LinkTag := ⟨none⟩

/-- A teaser tag dated at the given calendar-day index. -/
def teaserAt (d : Int) : TeaserTag := ⟨d, "teaser"⟩

/-- An audio-metadata tag whose URL carries no size parameter. -/
def dataPlain : DataTag := ⟨"Ep", "https://ondemand.npr.org/a.mp3", 3600, none⟩

/-- An audio-metadata tag whose URL carries an explicit size parameter. -/
def dataWithSize : DataTag :=
  ⟨"Ep", "https://ondemand.npr.org/a.mp3?size=999", 3600, some "999"⟩

/-- A page with a full complement of 24 raw rows of which the first four
are premium entries without an anchor. -/
def pageFullWithSkips : Page :=
  ⟨List.replicate 4 tagPremium ++ List.replicate 20 tagLinked,
   List.replicate 24 (teaserAt 18628), List.replicate 24 dataPlain⟩

/-- Listing: a full page with skips at offset 1, nothing afterwards. -/
def webSkips : Nat → Page := fun n => if n = 1 then pageFullWithSkips else pageEmpty

/-- A page with a full complement of 24 accessible rows. -/
def pageFull24 : Page :=
  ⟨List.replicate 24 tagLinked, List.replicate 24 (teaserAt 18642),
   List.replicate 24 dataPlain⟩

/-- A listing every page of which is full. -/
def webFull : Nat → Page := fun _ => pageFull24

/-- A short page carrying two accessible episodes, newest first. -/
def pageTwo : Page :=
  ⟨[tagLinked, tagLinked], [teaserAt 18642, teaserAt 18635], [dataPlain, dataPlain]⟩

/-- Listing: the two-episode page at offset 1, nothing afterwards. -/
def webTwo : Nat → Page := fun n => if n = 1 then pageTwo else pageEmpty

/-- A short page with one accessible episode dated after the cutoff below. -/
def pageC2 : Page := ⟨[tagLinked], [teaserAt 18642], [dataPlain]⟩

/-- Listing: that single-episode page at offset 1, nothing afterwards. -/
def webC2 : Nat → Page := fun n => if n = 1 then pageC2 else pageEmpty

/-- A cutoff date (noon UTC on day 18635). -/
def cutoffW : PyDateTime := ⟨18635, 43200, some 0⟩

/-- A page whose only accessible episode lies at or before that cutoff. -/
def pageBreak : Page := ⟨[tagLinked], [teaserAt 18600], [dataPlain]⟩

/-- Listing consisting of that page everywhere. -/
def webBreak : Nat → Page := fun _ => pageBreak

/-- The episode the harvester builds from pageC2's single row. -/
def epC2 : Episode :=
  mkWebEpisode "https://www.npr.org/ep" (normalizeWebDate 18642) (teaserAt 18642)
    dataPlain

/-- A feed item dated noon UTC on day 18628. -/
def itemA : RssItem :=
  ⟨"A", "Fri, 01 Jan 2021 12:00:00 +0000", ⟨18628, 43200, some 0⟩,
   "https://www.cartalk.com/a", "teaser a", "3600",
   "https://aud.example/a.mp3", "100"⟩

/-- A feed item dated noon UTC on day 18635. -/
def itemB : RssItem :=
  ⟨"B", "Fri, 08 Jan 2021 12:00:00 +0000", ⟨18635, 43200, some 0⟩,
   "https://www.cartalk.com/b", "teaser b", "3600",
   "https://aud.example/b.mp3", "200"⟩

/-- A feed item dated noon UTC on day 18642. -/
def itemC : RssItem :=
  ⟨"C", "Fri, 15 Jan 2021 12:00:00 +0000", ⟨18642, 43200, some 0⟩,
   "https://www.cartalk.com/c", "teaser c", "3600",
   "https://aud.example/c.mp3", "300"⟩

/-- A channel with a single item. -/
def chOne : Channel := ⟨[itemA]⟩

/-- The episode get_episodes_from_channel builds from itemA: the raw
pubDate string is stored unparsed. -/
def mkChannelEpisodeA : Episode :=
  { title := "A", description := "teaser a"
    pub_date := .raw "Fri, 01 Jan 2021 12:00:00 +0000"
    link := "https://www.cartalk.com/a", audio_url := "https://aud.example/a.mp3"
    duration := .str "3600", size := "100" }

/-- The root of a feed file holding that channel. -/
def rootOne : XmlRoot := ⟨some chOne⟩

/-- A channel with three items in ascending date order. -/
def chThree : Channel := ⟨[itemA, itemB, itemC]⟩

/-- The root of a well-formed feed file whose channel has no items. -/
def emptyChannelRoot : XmlRoot := ⟨some ⟨[]⟩⟩

lemma toString_int_ofNat (k : Nat) : toString ((k : Int)) = toString k := rfl

/-- C1 counterexample: with an input feed whose channel parses but holds no
items (an empty existing-episode sequence, which the claim explicitly
covers), the run raises an uncaught AttributeError inside
get_last_episode_date, so no episode sequence at all is handed to the feed
emitter — in particular not existing ++ reverse(harvested). -/
theorem C1_counterexample :
    mainModel (some (InputFile.parsed emptyChannelRoot)) webEmpty 1 =
      RunOutcome.exc PyExc.attributeError := rfl

/-- C1 (amended): when an existing feed file with a non-empty channel is
supplied, so that last_episode_date is computable, the episode sequence
handed to the feed emitter is exactly the existing episodes followed by the
reverse of the harvested episodes. -/
theorem C1_merge_order :
    ∀ (web : Nat → Page) (fuel : Nat) (root : XmlRoot) (ch : Channel)
      (led : PyDateTime),
      root.channel? = some ch → get_last_episode_date ch = .ok led →
      mainModel (some (.parsed root)) web fuel =
        .success (get_episodes_from_channel ch ++
          (get_episodes_from_web web (some led) fuel).1.reverse) := by
  intro web fuel root ch led hch hled
  simp only [mainModel, hch, hled]

/-- C1 witness: the merge equation instantiated at a one-item feed and an
exhausted listing. -/
theorem C1_merge_order_witness :
    mainModel (some (InputFile.parsed rootOne)) webEmpty 1 =
      RunOutcome.success (get_episodes_from_channel chOne ++
        (get_episodes_from_web webEmpty (some itemA.pubDateParsed) 1).1.reverse) :=
  C1_merge_order webEmpty 1 rootOne chOne itemA.pubDateParsed rfl rfl

/-- C2: with a cutoff date set, (1) every episode the web harvester emits
has a publication date strictly after the cutoff; (2) as soon as an entry
with an accessible link at or before the cutoff is examined, the entry loop
emits neither it nor anything after it and signals the break; (3) once the
break fires on a page, the page loop makes no further request. -/
theorem C2_cutoff_excludes :
    (∀ (web : Nat → Page) (cutoff : PyDateTime) (fuel : Nat) (ep : Episode),
       ep ∈ (get_episodes_from_web web (some cutoff) fuel).1 →
       ∃ t, ep.pub_date = PubDateVal.dt t ∧ toInstant cutoff < toInstant t) ∧
    (∀ (cutoff : PyDateTime) (l : LinkTag) (t : TeaserTag) (d : DataTag)
       (rest : List (LinkTag × TeaserTag × DataTag)) (href : String),
       l.a = some href →
       toInstant (normalizeWebDate t.timeDatetime) ≤ toInstant cutoff →
       processEntries (some cutoff) ((l, t, d) :: rest) = ([], true)) ∧
    (∀ (web : Nat → Page) (cutoff : PyDateTime) (fuel start : Nat),
       (processEntries (some cutoff) (zip3 (web (start + 1)).linkTags
          (web (start + 1)).teaserTags (web (start + 1)).dataTags)).2 = true →
       (harvestLoop web (some cutoff) (fuel + 1) start).2 = [start + 1]) := by
  refine ⟨?_, ?_, ?_⟩
  · intro web cutoff fuel ep hmem
    obtain ⟨l, t, d, href, _, hcut, heq⟩ := harvestLoop_mem hmem
    refine ⟨normalizeWebDate t.timeDatetime, ?_, ?_⟩
    · rw [heq]
      rfl
    · simp only [cutoffHit, decide_eq_false_iff_not, not_le] at hcut
      exact hcut
  · intro cutoff l t d rest href ha hle
    simp [processEntries, ha, cutoffHit, hle]
  · intro web cutoff fuel start hbroke
    rw [harvestLoop]
    rw [if_neg]
    intro hcon
    rw [hbroke] at hcon
    simp at hcon

/-- C2 witness: a harvested episode strictly after the cutoff; the entry
loop stopping dead on an at-or-before-cutoff entry; the page loop stopping
after the page whose entry loop broke. -/
theorem C2_cutoff_excludes_witness :
    (∃ t, epC2.pub_date = PubDateVal.dt t ∧ toInstant cutoffW < toInstant t) ∧
    processEntries (some cutoffW) [(tagLinked, teaserAt 18600, dataPlain)] =
      ([], true) ∧
    (harvestLoop webBreak (some cutoffW) 1 0).2 = [1] :=
  ⟨C2_cutoff_excludes.1 webC2 cutoffW 1 epC2 (by decide),
   C2_cutoff_excludes.2.1 cutoffW tagLinked (teaserAt 18600) dataPlain []
     "https://www.npr.org/ep" rfl (by decide),
   C2_cutoff_excludes.2.2 webBreak cutoffW 0 0 (by decide)⟩

/-- C3 counterexample: a page carrying its full complement of 24 raw rows
of which only 20 yield episodes (four premium rows are skipped). Were only
successfully-extracted entries counted against the page-size threshold,
this page (20 < 24 valid rows) would signal the final page; in fact the
code counts the raw teaser rows and requests the next page (offsets 1 and
then 25 are both fetched). -/
theorem C3_counterexample :
    (processEntries none (zip3 pageFullWithSkips.linkTags
       pageFullWithSkips.teaserTags pageFullWithSkips.dataTags)).1.length = 20 ∧
    (get_episodes_from_web webSkips none 2).2 = [1, 25] := by
  exact ⟨by decide, by decide⟩

/-- C3 (amended): an entry with no accessible link is excluded from the
harvester's output (dropping it leaves the entry loop's result unchanged),
but the pagination threshold counts the raw teaser rows, skipped entries
included: with no cutoff in play, the loop fetches a further page exactly
when the current page had at least 24 raw teaser rows, regardless of how
many entries were skipped. -/
theorem C3_skip_and_threshold :
    (∀ (cutoff : Option PyDateTime) (l : LinkTag) (t : TeaserTag) (d : DataTag)
       (rest : List (LinkTag × TeaserTag × DataTag)),
       l.a = none → processEntries cutoff ((l, t, d) :: rest) =
         processEntries cutoff rest) ∧
    (∀ (web : Nat → Page) (fuel start : Nat),
       2 ≤ (harvestLoop web none (fuel + 2) start).2.length ↔
         EPS_PER_PAGE ≤ (web (start + 1)).teaserTags.length) := by
  constructor
  · intro cutoff l t d rest ha
    simp [processEntries, ha]
  · intro web fuel start
    rw [harvestLoop]
    by_cases hlen : EPS_PER_PAGE ≤ (web (start + 1)).teaserTags.length
    · rw [if_pos (And.intro hlen (processEntries_none_no_break _))]
      have h1 := harvestLoop_reqs_len_pos web none fuel (start + EPS_PER_PAGE)
      simp only [List.length_cons]
      constructor
      · intro _
        exact hlen
      · intro _
        omega
    · rw [if_neg (fun hcon => hlen hcon.1)]
      simp only [List.length_cons, List.length_nil]
      constructor
      · intro h2
        omega
      · intro hc
        exact absurd hc hlen

/-- C3 witness: dropping a premium row changes nothing, and on the
full-page-with-skips listing the threshold equivalence is concrete. -/
theorem C3_skip_and_threshold_witness :
    processEntries none [(tagPremium, teaserAt 18628, dataPlain)] =
      processEntries none [] ∧
    (2 ≤ (harvestLoop webSkips none 2 0).2.length ↔
      EPS_PER_PAGE ≤ (webSkips 1).teaserTags.length) :=
  ⟨C3_skip_and_threshold.1 none tagPremium (teaserAt 18628) dataPlain [] rfl,
   C3_skip_and_threshold.2 webSkips 0 0⟩

/-- C4 counterexample: with no input feed, a listing yielding two episodes
with distinct dates is handed to the feed emitter exactly in harvest
emission order — which is not the reverse of the harvest emission order, as
the claim asserts. -/
theorem C4_counterexample :
    mainModel none webTwo 2 =
      RunOutcome.success ((get_episodes_from_web webTwo none 2).1) ∧
    mainModel none webTwo 2 ≠
      RunOutcome.success (((get_episodes_from_web webTwo none 2).1).reverse) :=
  ⟨rfl, by decide⟩

/-- C4 (amended): when no existing feed file is supplied, the episode
sequence passed to the feed emitter is the full unbounded web harvest in
its emission order (newest first); line 54 performs no reversal. -/
theorem C4_direct_order :
    ∀ (web : Nat → Page) (fuel : Nat),
      mainModel none web fuel =
        RunOutcome.success ((get_episodes_from_web web none fuel).1) :=
  fun _ _ => rfl

/-- C4 witness: the amended statement at the two-episode listing. -/
theorem C4_direct_order_witness :
    mainModel none webTwo 2 =
      RunOutcome.success ((get_episodes_from_web webTwo none 2).1) :=
  C4_direct_order webTwo 2

/-- C5 counterexample: the start parameters actually sent are 1 and then
25 — the sequence begins at 1, not at 0, because line 112 formats
start + 1 into the URL. -/
theorem C5_counterexample :
    (get_episodes_from_web webFull none 2).2 = [1, 25] ∧
    (get_episodes_from_web webFull none 2).2 ≠ [0, 24] :=
  ⟨rfl, by decide⟩

/-- C5 (amended): the harvester pages the listing with the start query
parameter beginning at 1 on the first request and incrementing by exactly
EPS_PER_PAGE = 24 on each subsequent one: the requested parameters are
24 * i + 1 for i = 0, 1, .... -/
theorem C5_offsets :
    ∀ (web : Nat → Page) (cutoff : Option PyDateTime) (fuel : Nat),
      ∃ n, (get_episodes_from_web web cutoff fuel).2 =
        (List.range n).map (fun i => EPS_PER_PAGE * i + 1) := by
  intro web cutoff fuel
  obtain ⟨n, hn⟩ := harvestLoop_reqs_shape web cutoff fuel 0
  refine ⟨n, ?_⟩
  rw [get_episodes_from_web, hn]
  exact List.map_congr_left (fun i _ => by omega)

/-- C5 witness: the progression shape on the always-full listing. -/
theorem C5_offsets_witness :
    ∃ n, (get_episodes_from_web webFull none 2).2 =
      (List.range n).map (fun i => EPS_PER_PAGE * i + 1) :=
  C5_offsets webFull none 2

/-- C6 counterexample: a one-item feed merged with an exhausted listing.
The episode handed to the feed emitter was built by
get_episodes_from_channel with pub_date holding the raw pubDate string of
the item — the raw constructor, not a parsed timezone-aware timestamp. -/
theorem C6_counterexample :
    mainModel (some (InputFile.parsed rootOne)) webEmpty 1 =
      RunOutcome.success (get_episodes_from_channel chOne) ∧
    (get_episodes_from_channel chOne).map Episode.pub_date =
      [PubDateVal.raw "Fri, 01 Jan 2021 12:00:00 +0000"] :=
  ⟨rfl, rfl⟩

/-- C6 (amended): episodes from a harvested web entry do carry a
timezone-aware (UTC) parsed timestamp, but episodes constructed from an
existing feed-file entry carry the item's raw pubDate string unchanged —
get_episodes_from_channel performs no date parsing. -/
theorem C6_pub_date_types :
    (∀ (ch : Channel) (ep : Episode), ep ∈ get_episodes_from_channel ch →
       ∃ item, item ∈ ch.items ∧ ep.pub_date = PubDateVal.raw item.pubDateText) ∧
    (∀ (web : Nat → Page) (cutoff : Option PyDateTime) (fuel : Nat)
       (ep : Episode), ep ∈ (get_episodes_from_web web cutoff fuel).1 →
       ∃ t, ep.pub_date = PubDateVal.dt t ∧ t.tzOffsetMinutes = some 0) := by
  constructor
  · intro ch ep hmem
    obtain ⟨item, hitem, heq⟩ := List.mem_map.mp hmem
    refine ⟨item, hitem, ?_⟩
    rw [← heq]
  · intro web cutoff fuel ep hmem
    obtain ⟨l, t, d, href, _, _, heq⟩ := harvestLoop_mem hmem
    refine ⟨normalizeWebDate t.timeDatetime, ?_, ?_⟩
    · rw [heq]
      rfl
    · rw [normalizeWebDate_spec]

/-- C6 witness: the channel half at the one-item feed (the raw string) and
the web half at the single-episode listing (the aware timestamp). -/
theorem C6_pub_date_types_witness :
    (∃ item, item ∈ chOne.items ∧
       (mkChannelEpisodeA).pub_date = PubDateVal.raw item.pubDateText) ∧
    (∃ t, epC2.pub_date = PubDateVal.dt t ∧ t.tzOffsetMinutes = some 0) :=
  ⟨C6_pub_date_types.1 chOne mkChannelEpisodeA (by decide),
   C6_pub_date_types.2 webC2 (some cutoffW) 1 epC2 (by decide)⟩

/-- C7: for every channel with at least one item, get_last_episode_date
succeeds and returns a date whose instant is the maximum of the first and
last items' parsed publication dates; that instant is one of the items'
instants, and when the items are in ascending or descending date order it
bounds every item's instant from above. -/
theorem C7_last_episode_date :
    ∀ (ch : Channel) (first last : RssItem),
      ch.items.head? = some first → ch.items.getLast? = some last →
      ∃ d, get_last_episode_date ch = Except.ok d ∧
        toInstant d = max (toInstant first.pubDateParsed)
          (toInstant last.pubDateParsed) ∧
        toInstant d ∈ ch.items.map (fun i => toInstant i.pubDateParsed) ∧
        ((List.Sorted (· ≤ ·) (ch.items.map (fun i => toInstant i.pubDateParsed)) ∨
          List.Sorted (· ≥ ·) (ch.items.map (fun i => toInstant i.pubDateParsed))) →
          ∀ x ∈ ch.items.map (fun i => toInstant i.pubDateParsed),
            x ≤ toInstant d) := by
  intro ch first last hf hl
  refine ⟨pyMax first.pubDateParsed last.pubDateParsed, ?_,
    toInstant_pyMax _ _, ?_, ?_⟩
  · simp only [get_last_episode_date, hf, hl]
  · rcases pyMax_eq_or first.pubDateParsed last.pubDateParsed with h | h
    · rw [h]
      exact List.mem_map.mpr ⟨first, mem_of_head?_eq hf, rfl⟩
    · rw [h]
      exact List.mem_map.mpr ⟨last, mem_of_getLast?_eq hl, rfl⟩
  · intro hsorted x hx
    rw [toInstant_pyMax]
    have hLf : (ch.items.map (fun i => toInstant i.pubDateParsed)).head? =
        some (toInstant first.pubDateParsed) := by
      rw [List.head?_map, hf]
      rfl
    have hLl : (ch.items.map (fun i => toInstant i.pubDateParsed)).getLast? =
        some (toInstant last.pubDateParsed) := by
      rw [List.getLast?_map, hl]
      rfl
    rcases hsorted with hs | hs
    · exact le_trans (sorted_le_getLast _ hs _ hLl x hx) (le_max_right _ _)
    · exact le_trans (sorted_le_head hs hLf x hx) (le_max_left _ _)

/-- C7 witness: the property at the three-item ascending channel. -/
theorem C7_last_episode_date_witness :
    ∃ d, get_last_episode_date chThree = Except.ok d ∧
      toInstant d = max (toInstant itemA.pubDateParsed)
        (toInstant itemC.pubDateParsed) ∧
      toInstant d ∈ chThree.items.map (fun i => toInstant i.pubDateParsed) ∧
      ((List.Sorted (· ≤ ·) (chThree.items.map (fun i => toInstant i.pubDateParsed)) ∨
        List.Sorted (· ≥ ·) (chThree.items.map (fun i => toInstant i.pubDateParsed))) →
        ∀ x ∈ chThree.items.map (fun i => toInstant i.pubDateParsed),
          x ≤ toInstant d) :=
  C7_last_episode_date chThree itemA itemC rfl rfl

/-- C8: normalizing a raw date-only value always yields a timezone-aware
timestamp (UTC offset 0) at exactly 12:00 — 43200 seconds into the day —
on the same calendar date. -/
theorem C8_noon_utc :
    ∀ d : Int, normalizeWebDate d =
      { days := d, secondsOfDay := 12 * 60 * 60, tzOffsetMinutes := some 0 } :=
  fun d => normalizeWebDate_spec d

/-- C8 witness: normalization at a concrete calendar day. -/
theorem C8_noon_utc_witness :
    normalizeWebDate 18642 =
      { days := 18642, secondsOfDay := 12 * 60 * 60,
        tzOffsetMinutes := some 0 } :=
  C8_noon_utc 18642

/-- C9: (1) when the audio URL's query parameters carry an explicit size it
is used verbatim; (2) otherwise, for every non-negative duration n, the
size is the decimal string of floor(n * 128 * 1000 / 8); (3) every
harvested episode's size is computeSize of its audio-metadata tag, hence
always populated by one of the two rules. -/
theorem C9_size :
    (∀ (d : DataTag) (s : String), d.urlSizeParam = some s →
       computeSize d = s) ∧
    (∀ (d : DataTag) (n : Nat), d.urlSizeParam = none →
       d.duration = (n : Int) →
       computeSize d = toString ((n * 128 * 1000) / 8)) ∧
    (∀ (web : Nat → Page) (cutoff : Option PyDateTime) (fuel : Nat)
       (ep : Episode), ep ∈ (get_episodes_from_web web cutoff fuel).1 →
       ∃ d, ep.size = computeSize d ∧ ep.audio_url = d.audioUrl) := by
  refine ⟨?_, ?_, ?_⟩
  · intro d s h
    simp [computeSize, h]
  · intro d n h1 h2
    simp only [computeSize, h1, h2, AUDIO_BITRATE]
    have hcast : ((n : Int) * 128 * 1000) = ((n * 128 * 1000 : Nat) : Int) := by
      push_cast
      ring
    have h3 : ((n * 128 * 1000 : Nat) : Int).fdiv ((8 : Int)) =
        ((n * 128 * 1000 / 8 : Nat) : Int) := by
      rw [Int.fdiv_eq_ediv _ (by norm_num)]
      exact (Int.ofNat_ediv _ _).symm
    rw [hcast, h3]
    exact toString_int_ofNat _
  · intro web cutoff fuel ep hmem
    obtain ⟨l, t, d, href, _, _, heq⟩ := harvestLoop_mem hmem
    refine ⟨d, ?_, ?_⟩
    · rw [heq]
      rfl
    · rw [heq]
      rfl

/-- C9 witness: the explicit-size rule, the estimation rule with duration
3600 (57600000 bytes), and the always-populated rule at the harvested
episode. -/
theorem C9_size_witness :
    computeSize dataWithSize = "999" ∧
    computeSize dataPlain = toString ((3600 * 128 * 1000) / 8) ∧
    (∃ d, epC2.size = computeSize d ∧ epC2.audio_url = d.audioUrl) :=
  ⟨C9_size.1 dataWithSize "999" rfl,
   C9_size.2.1 dataPlain 3600 rfl rfl,
   C9_size.2.2 webC2 (some cutoffW) 1 epC2 (by decide)⟩

/-- C10: an input feed that parses as XML and contains a channel but zero
items does not take the graceful error path that returns exit code -1:
get_last_episode_date dereferences the missing item[1]/pubDate and the run
ends with an uncaught AttributeError, so the Source Parser's precondition
is a channel with at least one item carrying a pubDate. -/
theorem C10_empty_channel_crash :
    ∀ (web : Nat → Page) (fuel : Nat) (root : XmlRoot) (ch : Channel),
      root.channel? = some ch → ch.items = [] →
      get_last_episode_date ch = Except.error PyExc.attributeError ∧
      mainModel (some (InputFile.parsed root)) web fuel =
        RunOutcome.exc PyExc.attributeError := by
  intro web fuel root ch hch hitems
  have hg : get_last_episode_date ch = Except.error PyExc.attributeError := by
    simp [get_last_episode_date, hitems]
  refine ⟨hg, ?_⟩
  simp only [mainModel, hch, hg]

/-- C10 witness: the crash at the concrete empty-channel feed. -/
theorem C10_empty_channel_crash_witness :
    get_last_episode_date ⟨[]⟩ = Except.error PyExc.attributeError ∧
    mainModel (some (InputFile.parsed emptyChannelRoot)) webEmpty 2 =
      RunOutcome.exc PyExc.attributeError :=
  C10_empty_channel_crash webEmpty 2 emptyChannelRoot ⟨[]⟩ rfl rfl

end CarTalk
